import Mathlib

set_option autoImplicit false

/-!
Shallow embedding of src/src/core/ocr_processor.py.

The source file contains two successive versions of the class
UnifiedOCRProcessor:

* V1 (lines 20-228): the "primary-plus-supplement" processor built on
  OpenAI Vision, with EasyOCR and Tesseract acting only as supplemental
  metadata providers.
* V2 (lines 244-625): the "best-of-N" processor built on Cloud Vision,
  EasyOCR and Tesseract, with a confidence threshold, a
  highest-confidence fallback and a shared layout analysis.

External libraries (the OpenAI and Cloud Vision clients, easyocr,
pytesseract, cv2, hashlib) are modelled as explicit inputs: each adapter
receives a value describing what its external call did (returned data,
or raised).  Python dictionaries are modelled as ordered association
lists with dict.update semantics (later writes overwrite in place).
-/

/-- Python-style coalescing: the left option if present, else the right. -/
def optOr {α : Type} (a b : Option α) : Option α :=
  match a with
  | some v => some v
  | none => b

/-- Lookup in an ordered association list (Python dict access). -/
def dictLookup {α : Type} (d : List (String × α)) (k : String) : Option α :=
  match d with
  | [] => none
  | (k', v) :: rest => if k' = k then some v else dictLookup rest k

/-- Write one key into an association list, overwriting an existing binding
in place and appending a fresh one at the end (Python dict item write). -/
def updateOne {α : Type} (d : List (String × α)) (k : String) (v : α) :
    List (String × α) :=
  match d with
  | [] => [(k, v)]
  | (k', v') :: rest =>
    if k' = k then (k, v) :: rest else (k', v') :: updateOne rest k v

/-- Python dict.update: write the bindings of the second dict into the
first, one after the other, in order. -/
def dictUpdate {α : Type} (d e : List (String × α)) : List (String × α) :=
  match e with
  | [] => d
  | (k, v) :: rest => dictUpdate (updateOne d k v) rest

/-- The keys of an association list are pairwise distinct, as they are for
any list that models an actual Python dict. -/
def keysNodup {α : Type} (d : List (String × α)) : Prop :=
  (d.map Prod.fst).Nodup

/-- JSON values as they occur in result metadata and in the serialized cache
files: strings, numbers, string arrays (detected languages), bounding-box
arrays (point lists from the OCR engines), and opaque values handed through
unchanged from an external engine (for example the creative-tags array the
vision model returns); no code path ever inspects the inside of those, so an
opaque index is a faithful model. -/
inductive MetaVal : Type
  | str (s : String)
  | num (q : ℚ)
  | strs (l : List String)
  | bboxes (l : List (List (Int × Int)))
  | ext (n : Nat)
deriving DecidableEq

/-! V1: the primary-plus-supplement processor (source lines 20-228) -/

/-- The parsed JSON object returned by the vision model, restricted to the
four keys that _process_with_openai_vision reads with .get; a missing key is
none.  (The transcription value is taken to be a string, which is how every
consumer of the result treats it.) -/
structure VisionResponseData where
  extracted_text : Option String
  summary : Option MetaVal
  creative_tags : Option MetaVal
  image_category : Option MetaVal
deriving DecidableEq

/-- The result dict of the V1 processor: the shape returned both by
_process_with_openai_vision and by process_image itself. -/
structure OcrResultV1 where
  text : String
  confidence : ℚ
  method : String
  metadata : List (String × MetaVal)
deriving DecidableEq

/-- What the external work inside _process_with_openai_vision did: either
some step raised (file open, API call, JSON parse), or the call returned a
parsed JSON object. -/
inductive OpenaiCall : Type
  | raises (e : String)
  | returns (response_data : VisionResponseData)
deriving DecidableEq

/-- Embedding of UnifiedOCRProcessor._process_with_openai_vision
(V1, source lines 125-176): on success, the transcription with a fixed 0.95
confidence plus summary / tags / category / model metadata; every internal
exception is caught and converted to an empty zero-confidence result with an
error note. -/
def processWithOpenaiVision (call : OpenaiCall) : OcrResultV1 :=
  match call with
  | .returns rd =>
    { text := rd.extracted_text.getD ""
      confidence := (95 : ℚ) / 100
      method := "openai_vision"
      metadata :=
        [("summary", rd.summary.getD (MetaVal.str ""))
        ,("tags", rd.creative_tags.getD (MetaVal.strs []))
        ,("category", rd.image_category.getD (MetaVal.str "unknown"))
        ,("model", MetaVal.str "gpt-5-mini")] }
  | .raises e =>
    { text := ""
      confidence := 0
      method := "openai_vision_failed"
      metadata := [("error", MetaVal.str e)] }

/-- One detection item returned by easyocr.Reader.readtext: bounding box,
text fragment, confidence. -/
structure EasyItem where
  bbox : List (Int × Int)
  itemText : String
  conf : ℚ
deriving DecidableEq

/-- What the external easyocr call did. -/
inductive EasyCall : Type
  | raises (e : String)
  | returns (results : List EasyItem)
deriving DecidableEq

/-- Embedding of the V1 _ocr_with_easyocr (source lines 202-214): it
contributes only the metadata mapping of its result dict (the orchestrator
reads result['metadata']); None on an internal exception or when nothing was
detected. -/
def ocrWithEasyocrV1 (call : EasyCall) : Option (List (String × MetaVal)) :=
  match call with
  | .raises _ => none
  | .returns [] => none
  | .returns results =>
    some [("easyocr_bbox_list", MetaVal.bboxes (results.map EasyItem.bbox))]

/-- What the external pytesseract.image_to_data call did in V1: raised, or
returned a data table whose text column is the given word list. -/
inductive TessCallV1 : Type
  | raises (e : String)
  | returns (words : List String)
deriving DecidableEq

/-- Embedding of the V1 _ocr_with_tesseract (source lines 216-228),
projected to the metadata mapping the orchestrator reads: the count of
non-blank words on success, a tesseract_error note on an internal
exception. -/
def ocrWithTesseractV1 (call : TessCallV1) : List (String × MetaVal) :=
  match call with
  | .raises e => [("tesseract_error", MetaVal.str e)]
  | .returns words =>
    [("tesseract_word_count",
      MetaVal.num (((words.filter (fun w => w.trim ≠ "")).length : ℚ)))]

/-- Outcome of a Future.result(timeout) call: the worker's return value, or
an exception (a TimeoutError, or anything escaping the worker). -/
inductive Fut (α : Type) : Type
  | ok (a : α)
  | exn
deriving DecidableEq

/-- The base_result of the V1 process_image (source lines 93-98): the
primary OpenAI outcome, replaced by an empty zero-confidence placeholder
when the future raises or times out. -/
def primaryOutcome (openai : Fut OpenaiCall) : OcrResultV1 :=
  match openai with
  | .ok call => processWithOpenaiVision call
  | .exn =>
    { text := ""
      confidence := 0
      method := "openai_vision_failed"
      metadata := [] }

/-- The metadata contributed by the EasyOCR future (V1 source lines
101-106): nothing when the reader was never initialized (the future is
None), when the future raises or times out, or when the adapter returned
None. -/
def suppEasyV1 (easyAvail : Bool) (easy : Fut EasyCall) :
    List (String × MetaVal) :=
  if easyAvail then
    match easy with
    | .ok call => (ocrWithEasyocrV1 call).getD []
    | .exn => []
  else []

/-- The metadata contributed by the Tesseract future (V1 source lines
108-113): nothing when the future raises or times out. -/
def suppTessV1 (tess : Fut TessCallV1) : List (String × MetaVal) :=
  match tess with
  | .ok call => ocrWithTesseractV1 call
  | .exn => []

/-- The supplemental_metadata dict of V1 process_image (source lines
83, 100-113): start empty, update with the EasyOCR metadata, then with the
Tesseract metadata (a skipped update is an update with nothing). -/
def supplementalMetadataV1 (easyAvail : Bool) (easy : Fut EasyCall)
    (tess : Fut TessCallV1) : List (String × MetaVal) :=
  dictUpdate (dictUpdate [] (suppEasyV1 easyAvail easy)) (suppTessV1 tess)

/-- The engine phase of V1 process_image (source lines 82-117): take the
primary outcome's text, confidence and method unconditionally, and merge the
supplemental metadata into its metadata. -/
def runEnginesV1 (openai : Fut OpenaiCall) (easyAvail : Bool)
    (easy : Fut EasyCall) (tess : Fut TessCallV1) : OcrResultV1 :=
  let base := primaryOutcome openai
  { base with
    metadata :=
      dictUpdate base.metadata (supplementalMetadataV1 easyAvail easy tess) }

/-- The exceptions that can escape process_image in this model: valueError
is the decode failure raised at V1 line 80 / V2 line 323, osError is an OS
error escaping the unguarded open() inside _generate_cache_key. -/
inductive PyExc : Type
  | valueError
  | osError
deriving DecidableEq

/-- A persisted V1 cache file: a well-formed serialized result, or a corrupt
file on which json.load raises. -/
inductive CacheFileV1 : Type
  | val (r : OcrResultV1)
  | corrupt
deriving DecidableEq

/-- Embedding of the V1 _generate_cache_key (source lines 178-184): the md5
hex digest of the file bytes and nothing else.  The hash is the external
hashlib function, passed as a parameter; the unguarded file read is modelled
at the call site in processImageV1. -/
def generateCacheKeyV1 (md5hex : List Nat → String) (fileBytes : List Nat) :
    String :=
  md5hex fileBytes

/-- Embedding of the V1 _get_cached_result (source lines 186-193): a missing
file is absent, and a corrupt entry is logged and treated as absent. -/
def getCachedResultV1 (enableCaching : Bool)
    (cache : List (String × CacheFileV1)) (key : String) :
    Option OcrResultV1 :=
  if enableCaching then
    match dictLookup cache key with
    | some (CacheFileV1.val r) => some r
    | some CacheFileV1.corrupt => none
    | none => none
  else none

/-- Embedding of the V1 _cache_result (source lines 195-200): best-effort
write of the serialized result; a write failure (writeOk = false) is
swallowed. -/
def cacheResultV1 (enableCaching writeOk : Bool)
    (cache : List (String × CacheFileV1)) (key : String) (r : OcrResultV1) :
    List (String × CacheFileV1) :=
  if enableCaching && writeOk then updateOne cache key (CacheFileV1.val r)
  else cache

/-- Embedding of the V1 process_image (source lines 65-123).  Returns the
result, the new cache state, and whether the engines were invoked (false on
a cache hit).  fileBytes none models a file the cache-key hashing cannot
open (that open is not guarded by any try); imreadOk false models
cv2.imread returning None, which raises the ValueError at line 80. -/
def processImageV1 (enableCaching : Bool)
    (cache : List (String × CacheFileV1)) (md5hex : List Nat → String)
    (fileBytes : Option (List Nat)) (imreadOk : Bool)
    (openai : Fut OpenaiCall) (easyAvail : Bool) (easy : Fut EasyCall)
    (tess : Fut TessCallV1) (writeOk : Bool) :
    Except PyExc (OcrResultV1 × List (String × CacheFileV1) × Bool) :=
  if enableCaching then
    match fileBytes with
    | none => Except.error PyExc.osError
    | some bs =>
      let key := generateCacheKeyV1 md5hex bs
      match getCachedResultV1 true cache key with
      | some r => Except.ok (r, cache, false)
      | none =>
        if imreadOk then
          let r := runEnginesV1 openai easyAvail easy tess
          Except.ok (r, cacheResultV1 true writeOk cache key r, true)
        else Except.error PyExc.valueError
  else
    if imreadOk then
      Except.ok (runEnginesV1 openai easyAvail easy tess, cache, true)
    else Except.error PyExc.valueError

/-- Absolute time at which a Future.result(timeout) call issued at time
start comes back, for a worker whose task finishes at absolute time d
(none = it never finishes): immediately if the task is already done, at the
task's finish time if that is within the timeout, and by a TimeoutError at
start + timeout otherwise.  All three V1 workers start at time 0
(max_workers defaults to 3 and exactly three tasks are submitted). -/
def waitResult (start : Nat) (d : Option Nat) (tmo : Nat) : Nat :=
  match d with
  | none => start + tmo
  | some f => if f ≤ start then start else min f (start + tmo)

/-- Time at which the V1 process_image returns, as a function of the
absolute finish times of the three adapter tasks (none = that task never
finishes).  The three result() waits (timeouts 60, 30, 30; source lines
95, 102, 109) bound each wait, but the with-statement wrapping the
ThreadPoolExecutor (line 85) runs shutdown(wait=True) on exit, joining every
worker thread: the facade therefore returns at the maximum of the waits and
of all task finish times, and never returns at all (none) if any task never
finishes. -/
def processImageV1ReturnTime (dOpenai dEasy dTess : Option Nat) :
    Option Nat :=
  let t1 := waitResult 0 dOpenai 60
  let t2 := waitResult t1 dEasy 30
  let t3 := waitResult t2 dTess 30
  match dOpenai, dEasy, dTess with
  | some a, some b, some c => some (max t3 (max a (max b c)))
  | _, _, _ => none

/-! V2: the best-of-N processor (source lines 244-625) -/

/-- Images are in-memory pixel matrices; every cv2 operation on them is an
external function passed in explicitly. -/
abbrev Img : Type := List (List Nat)

/-- The cv2 operations used by the V2 _preprocess_image, as external
functions. -/
structure CvOps where
  cvtColorGray : Img → Img
  fastNlMeansDenoising : Img → Img
  claheApply : Img → Img
  adaptiveThreshold : Img → Img

/-- Embedding of the V2 _preprocess_image (source lines 435-462): grayscale
conversion, denoising, CLAHE contrast enhancement, adaptive binarization, in
that order. -/
def preprocessImage (cv : CvOps) (image : Img) : Img :=
  cv.adaptiveThreshold (cv.claheApply (cv.fastNlMeansDenoising (cv.cvtColorGray image)))

/-- A bounding rectangle as returned by cv2.boundingRect. -/
structure Rect where
  x : Nat
  y : Nat
  w : Nat
  h : Nat
deriving DecidableEq

/-- One classified layout block: bounding box plus the fixed heuristic
confidence of its class. -/
structure LayoutBlock where
  bbox : Rect
  blockConfidence : ℚ
deriving DecidableEq

/-- The layout dict built by the V2 _detect_layout. -/
structure LayoutDict where
  tables : List LayoutBlock
  columns : List LayoutBlock
  images : List LayoutBlock
  text_blocks : List LayoutBlock
deriving DecidableEq

/-- The initial layout dict of _detect_layout (source lines 471-476). -/
def emptyLayoutDict : LayoutDict :=
  { tables := [], columns := [], images := [], text_blocks := [] }

/-- One iteration of the contour loop of the V2 _detect_layout (source lines
485-507): blocks with area over 10000 are classified by aspect ratio as
image (near square, confidence 0.7), table (wide, confidence 0.6) or text
block (otherwise, confidence 0.8); smaller contours are dropped. -/
def classifyContour (layout : LayoutDict) (r : Rect) : LayoutDict :=
  let area := r.w * r.h
  let aspect : ℚ := if 0 < r.h then (r.w : ℚ) / (r.h : ℚ) else 0
  if 10000 < area then
    if (8 : ℚ) / 10 < aspect ∧ aspect < (12 : ℚ) / 10 then
      { layout with images := layout.images ++ [⟨r, (7 : ℚ) / 10⟩] }
    else if (3 : ℚ) < aspect then
      { layout with tables := layout.tables ++ [⟨r, (6 : ℚ) / 10⟩] }
    else
      { layout with text_blocks := layout.text_blocks ++ [⟨r, (8 : ℚ) / 10⟩] }
  else layout

/-- Embedding of the V2 _detect_layout (source lines 464-509).  The external
cv2.findContours plus cv2.boundingRect step is abstracted into the given
list of bounding rectangles of the external contours of the image. -/
def detectLayout (contourRects : List Rect) : LayoutDict :=
  contourRects.foldl classifyContour emptyLayoutDict

/-- The value stored under the "layout" key of a V2 result: the literal
empty dict when detect_layout is off (source line 330), else the analyzed
layout dict. -/
inductive LayoutVal : Type
  | emptyDict
  | layout (l : LayoutDict)
deriving DecidableEq

/-- The dict returned by a V2 OCR adapter: text, confidence and metadata
(method and layout are attached later by the orchestrator). -/
structure V2Outcome where
  text : String
  confidence : ℚ
  metadata : List (String × MetaVal)
deriving DecidableEq

/-- The final result dict of the V2 process_image. -/
structure OcrResultV2 where
  text : String
  confidence : ℚ
  method : String
  layout : LayoutVal
  metadata : List (String × MetaVal)
deriving DecidableEq

/-- Mean of a list of rationals with the "if the list else 0" guard the code
uses around np.mean. -/
def ratMean (xs : List ℚ) : ℚ :=
  if xs = [] then 0 else xs.sum / (xs.length : ℚ)

/-- One page of a Cloud Vision full_text_annotation: the confidences of its
blocks and its detected language codes. -/
structure VisionPage where
  blockConfidences : List ℚ
  detectedLanguages : List String
deriving DecidableEq

/-- A Cloud Vision document_text_detection response. -/
structure VisionFullText where
  errorMessage : String
  fullText : String
  pages : List VisionPage
deriving DecidableEq

/-- What the external Cloud Vision client call did on the given bytes. -/
inductive CloudCall : Type
  | raises (e : String)
  | responds (resp : VisionFullText)
deriving DecidableEq

/-- Embedding of the V2 _ocr_with_cloud_vision (source lines 511-550).  The
adapter is handed the image path and opens and reads the file itself:
readBytes is the content it reads from disk (none models an open or read
failure, whose exception is caught and yields None).  The client call on
those bytes is the external cloudClient function.  A response carrying an
error message yields None; otherwise confidence is the mean of all block
confidences over all pages and the first page's language codes become
metadata. -/
def ocrWithCloudVision (readBytes : Option (List Nat))
    (cloudClient : List Nat → CloudCall) : Option V2Outcome :=
  match readBytes with
  | none => none
  | some content =>
    match cloudClient content with
    | .raises _ => none
    | .responds resp =>
      if resp.errorMessage ≠ "" then none
      else
        some
          { text := resp.fullText
            confidence := ratMean (resp.pages.map VisionPage.blockConfidences).flatten
            metadata :=
              [("detected_languages",
                MetaVal.strs
                  (match resp.pages with
                   | [] => []
                   | p :: _ => p.detectedLanguages))] }

/-- Embedding of the V2 _ocr_with_easyocr (source lines 552-581): None on an
internal exception or when nothing was detected; otherwise the fragments
joined with single spaces, the mean fragment confidence, and block count
plus bounding boxes as metadata. -/
def ocrWithEasyocrV2 (call : EasyCall) : Option V2Outcome :=
  match call with
  | .raises _ => none
  | .returns [] => none
  | .returns results =>
    some
      { text := String.intercalate " " (results.map EasyItem.itemText)
        confidence := ratMean (results.map EasyItem.conf)
        metadata :=
          [("num_blocks", MetaVal.num ((results.length : ℚ)))
          ,("bbox_list", MetaVal.bboxes (results.map EasyItem.bbox))] }

/-- What the two external pytesseract calls inside the V2 _ocr_with_tesseract
did: raised at some point, or returned image_to_string's text together with
image_to_data's conf and text columns. -/
inductive TessCallV2 : Type
  | raises (e : String)
  | returns (text : String) (confs : List Int) (words : List String)
deriving DecidableEq

/-- Embedding of the V2 _ocr_with_tesseract (source lines 583-625): the
stripped page text, the mean of the positive per-word confidences scaled
from percent into [0,1], and the non-blank word count as metadata; an
internal exception is caught and yields an empty zero-confidence outcome
with an error note. -/
def ocrWithTesseractV2 (call : TessCallV2) : V2Outcome :=
  match call with
  | .raises e =>
    { text := "", confidence := 0, metadata := [("error", MetaVal.str e)] }
  | .returns t confs words =>
    let cs := confs.filter (fun c => 0 < c)
    let avg : ℚ :=
      if cs = [] then 0
      else ((cs.map (fun c => (c : ℚ))).sum / (cs.length : ℚ)) / 100
    { text := t.trim
      confidence := avg
      metadata :=
        [("num_words",
          MetaVal.num (((words.filter (fun w => w.trim ≠ "")).length : ℚ)))] }

/-- When a submitted future completes, relative to the two waits the V2
orchestrator performs on it: within the 30 s first-pass wait (onTime), only
within the 5 s second-pass wait (late), or not within either (never, which
also covers a worker that never finishes). -/
inductive Timing : Type
  | onTime
  | late
  | never
deriving DecidableEq

/-- Attach the winning engine's name and the shared layout to an accepted
outcome (source lines 357-359, 373 and 380). -/
def attachV2 (o : V2Outcome) (method : String) (l : LayoutVal) : OcrResultV2 :=
  { text := o.text
    confidence := o.confidence
    method := method
    layout := l
    metadata := o.metadata }

/-- The all-engines-failed result of source lines 382-388. -/
def allFailedV2 (l : LayoutVal) : OcrResultV2 :=
  { text := ""
    confidence := 0
    method := "none"
    layout := l
    metadata := [("error", MetaVal.str "All OCR methods failed")] }

/-- First pass over the futures dict (source lines 352-364): in insertion
order, wait up to 30 s for each result and accept the first non-None outcome
whose confidence meets the threshold; a timeout, an exception, a None result
or a below-threshold result moves on to the next future. -/
def scanThreshold (th : ℚ) :
    List (String × Timing × Option V2Outcome) → Option (String × V2Outcome)
  | [] => none
  | (name, timing, value) :: rest =>
    match timing, value with
    | Timing.onTime, some o =>
      if th ≤ o.confidence then some (name, o) else scanThreshold th rest
    | _, _ => scanThreshold th rest

/-- Second pass (source lines 367-376): re-collect every future's result
with a short wait, keeping the non-None outcomes of those that completed. -/
def collectCompleted :
    List (String × Timing × Option V2Outcome) → List (String × V2Outcome)
  | [] => []
  | (name, timing, value) :: rest =>
    match timing, value with
    | Timing.never, _ => collectCompleted rest
    | _, some o => (name, o) :: collectCompleted rest
    | _, none => collectCompleted rest

/-- Python max(results, key=confidence) over a nonempty list: walk the list
keeping the running best and replace it only on a strict improvement, so the
first element of maximal confidence wins. -/
def pyMaxByConf (c : String × V2Outcome) :
    List (String × V2Outcome) → String × V2Outcome
  | [] => c
  | x :: rest =>
    pyMaxByConf (if c.2.confidence < x.2.confidence then x else c) rest

/-- The full selection logic of the V2 process_image, source lines 352-388:
threshold scan, then highest-confidence fallback over the completed
outcomes, then the all-failed result. -/
def ocrSelectV2 (th : ℚ) (l : LayoutVal)
    (futs : List (String × Timing × Option V2Outcome)) : OcrResultV2 :=
  match scanThreshold th futs with
  | some (name, o) => attachV2 o name l
  | none =>
    match collectCompleted futs with
    | [] => allFailedV2 l
    | c :: rest =>
      let best := pyMaxByConf c rest
      attachV2 best.2 best.1 l

/-- Embedding of the V2 _generate_cache_key (source lines 396-404): the md5
hex digest of the file bytes combined with the preprocess and detect_layout
flags and the confidence threshold, then hashed with sha256.  The two hash
functions and the float rendering are external (hashlib / Python str). -/
def generateCacheKeyV2 (md5hex : List Nat → String)
    (sha256hex : String → String) (floatRepr : ℚ → String)
    (fileBytes : List Nat) (preprocess detectLayoutFlag : Bool) (th : ℚ) :
    String :=
  sha256hex (md5hex fileBytes ++ "_" ++
    (if preprocess then "True" else "False") ++ "_" ++
    (if detectLayoutFlag then "True" else "False") ++ "_" ++ floatRepr th)

/-- A persisted V2 cache file: a well-formed serialized result, or a corrupt
file on which json.load raises. -/
inductive CacheFileV2 : Type
  | val (r : OcrResultV2)
  | corrupt
deriving DecidableEq

/-- What a submitted adapter received: the image path, from which the
adapter itself then reads the given bytes (Cloud Vision), or an in-memory
image (EasyOCR and Tesseract). -/
inductive AdapterInput : Type
  | fileRead (bytes : Option (List Nat))
  | image (img : Img)
deriving DecidableEq

/-- The futures dict as built at source lines 338-350, in insertion order:
cloud_vision (when prefer_cloud is set and the client initialized), easyocr
(when the reader initialized), then always tesseract, each paired with its
completion timing and the value its embedded adapter computes. -/
def futuresV2 (cloudAvail : Bool) (cloudTiming : Timing)
    (fileBytes : Option (List Nat)) (cloudClient : List Nat → CloudCall)
    (easyAvail : Bool) (easyTiming : Timing) (easyCall : EasyCall)
    (tessTiming : Timing) (tessCall : TessCallV2) :
    List (String × Timing × Option V2Outcome) :=
  (if cloudAvail then
    [("cloud_vision", cloudTiming, ocrWithCloudVision fileBytes cloudClient)]
   else []) ++
  (if easyAvail then
    [("easyocr", easyTiming, ocrWithEasyocrV2 easyCall)]
   else []) ++
  [("tesseract", tessTiming, some (ocrWithTesseractV2 tessCall))]

/-- The trace of adapter submissions: which engine got which input.  The
cloud adapter is handed the file path and reads the file bytes itself; the
two local adapters are handed the in-memory (possibly preprocessed)
image. -/
def traceV2 (cloudAvail : Bool) (fileBytes : Option (List Nat))
    (easyAvail : Bool) (imgFinal : Img) : List (String × AdapterInput) :=
  (if cloudAvail then
    [("cloud_vision", AdapterInput.fileRead fileBytes)]
   else []) ++
  (if easyAvail then [("easyocr", AdapterInput.image imgFinal)] else []) ++
  [("tesseract", AdapterInput.image imgFinal)]

/-- Embedding of the V2 _get_cached_result (source lines 406-420). -/
def getCachedResultV2 (enableCaching : Bool)
    (cache : List (String × CacheFileV2)) (key : String) :
    Option OcrResultV2 :=
  if enableCaching then
    match dictLookup cache key with
    | some (CacheFileV2.val r) => some r
    | some CacheFileV2.corrupt => none
    | none => none
  else none

/-- Embedding of the V2 process_image (source lines 296-394).  fileBytes is
the content of the file at image_path (none = unreadable): it is what both
the unguarded cache-key hashing and the Cloud Vision adapter's own read see.
imread is cv2.imread's decode result.  Returns the result, the new cache
state, and the trace of adapter submissions (empty on a cache hit). -/
def processImageV2 (enableCaching : Bool)
    (cache : List (String × CacheFileV2)) (md5hex : List Nat → String)
    (sha256hex : String → String) (floatRepr : ℚ → String)
    (confidenceThreshold : ℚ) (fileBytes : Option (List Nat))
    (preprocess detectLayoutFlag : Bool) (imread : Option Img) (cv : CvOps)
    (findContourRects : Img → List Rect) (cloudAvail : Bool)
    (cloudTiming : Timing) (cloudClient : List Nat → CloudCall)
    (easyAvail : Bool) (easyTiming : Timing) (easyCall : EasyCall)
    (tessTiming : Timing) (tessCall : TessCallV2) (writeOk : Bool) :
    Except PyExc
      (OcrResultV2 × List (String × CacheFileV2) ×
        List (String × AdapterInput)) :=
  if enableCaching then
    match fileBytes with
    | none => Except.error PyExc.osError
    | some bs =>
      let key := generateCacheKeyV2 md5hex sha256hex floatRepr bs preprocess
        detectLayoutFlag confidenceThreshold
      match getCachedResultV2 true cache key with
      | some r => Except.ok (r, cache, [])
      | none =>
        match imread with
        | none => Except.error PyExc.valueError
        | some img0 =>
          let img := if preprocess then preprocessImage cv img0 else img0
          let l :=
            if detectLayoutFlag then
              LayoutVal.layout (detectLayout (findContourRects img))
            else LayoutVal.emptyDict
          let futs := futuresV2 cloudAvail cloudTiming fileBytes cloudClient
            easyAvail easyTiming easyCall tessTiming tessCall
          let r := ocrSelectV2 confidenceThreshold l futs
          let cache' :=
            if writeOk then updateOne cache key (CacheFileV2.val r)
            else cache
          Except.ok (r, cache', traceV2 cloudAvail fileBytes easyAvail img)
  else
    match imread with
    | none => Except.error PyExc.valueError
    | some img0 =>
      let img := if preprocess then preprocessImage cv img0 else img0
      let l :=
        if detectLayoutFlag then
          LayoutVal.layout (detectLayout (findContourRects img))
        else LayoutVal.emptyDict
      let futs := futuresV2 cloudAvail cloudTiming fileBytes cloudClient
        easyAvail easyTiming easyCall tessTiming tessCall
      let r := ocrSelectV2 confidenceThreshold l futs
      Except.ok (r, cache, traceV2 cloudAvail fileBytes easyAvail img)

/-! Spec-side selection functions for the best-of-N policy -/

/-- Spec side: a future is acceptable in the threshold phase when it
completed within the first-pass wait with an outcome meeting the
threshold. -/
def acceptableAt (th : ℚ) (f : String × Timing × Option V2Outcome) :
    Option (String × V2Outcome) :=
  match f with
  | (name, Timing.onTime, some o) =>
    if th ≤ o.confidence then some (name, o) else none
  | _ => none

/-- Spec side: the first future, in the fixed priority order of the futures
dict, that is acceptable in the threshold phase. -/
def firstAccepted (th : ℚ)
    (futs : List (String × Timing × Option V2Outcome)) :
    Option (String × V2Outcome) :=
  (futs.filterMap (acceptableAt th)).head?

/-- Spec side: the outcomes of the adapters that completed (within either
wait) with a non-None result. -/
def completedOutcomes (futs : List (String × Timing × Option V2Outcome)) :
    List (String × V2Outcome) :=
  futs.filterMap (fun f =>
    match f with
    | (_, Timing.never, _) => none
    | (name, _, some o) => some (name, o)
    | (_, _, none) => none)

/-! Lemmas on the dict model -/

theorem optOr_none_right {α : Type} (a : Option α) : optOr a none = a := by
  cases a <;> rfl

theorem dictLookup_updateOne {α : Type} (d : List (String × α)) (k : String)
    (v : α) (k' : String) :
    dictLookup (updateOne d k v) k' =
      if k = k' then some v else dictLookup d k' := by
  induction d with
  | nil => simp [updateOne, dictLookup]
  | cons hd tl ih =>
    obtain ⟨a, b⟩ := hd
    by_cases hak : a = k
    · subst hak
      by_cases hkk : a = k'
      · simp [updateOne, dictLookup, hkk]
      · simp [updateOne, dictLookup, hkk]
    · by_cases hak' : a = k'
      · subst hak'
        simp [updateOne, dictLookup, hak, Ne.symm hak]
      · simp [updateOne, dictLookup, hak, hak', ih]

theorem dictLookup_eq_none {α : Type} (d : List (String × α)) (k : String)
    (h : k ∉ d.map Prod.fst) : dictLookup d k = none := by
  induction d with
  | nil => rfl
  | cons hd tl ih =>
    obtain ⟨a, b⟩ := hd
    simp only [List.map_cons, List.mem_cons] at h
    push_neg at h
    have hak : a ≠ k := fun hh => h.1 hh.symm
    simp only [dictLookup, if_neg hak]
    exact ih h.2

theorem mem_keys_updateOne {α : Type} (d : List (String × α)) (k : String)
    (v : α) (x : String) (h : x ∈ (updateOne d k v).map Prod.fst) :
    x ∈ d.map Prod.fst ∨ x = k := by
  induction d with
  | nil =>
    right
    simpa [updateOne] using h
  | cons hd tl ih =>
    obtain ⟨a, b⟩ := hd
    by_cases hak : a = k
    · subst hak
      simp only [updateOne, if_pos rfl, List.map_cons] at h
      rw [List.map_cons, List.mem_cons]
      rcases List.mem_cons.mp h with h1 | h1
      · exact Or.inr h1
      · exact Or.inl (Or.inr h1)
    · simp only [updateOne, if_neg hak, List.map_cons] at h
      rw [List.map_cons, List.mem_cons]
      rcases List.mem_cons.mp h with h1 | h1
      · exact Or.inl (Or.inl h1)
      · rcases ih h1 with h2 | h2
        · exact Or.inl (Or.inr h2)
        · exact Or.inr h2

theorem keysNodup_updateOne {α : Type} (d : List (String × α)) (k : String)
    (v : α) (h : keysNodup d) : keysNodup (updateOne d k v) := by
  induction d with
  | nil => simp [updateOne, keysNodup]
  | cons hd tl ih =>
    obtain ⟨a, b⟩ := hd
    simp only [keysNodup, List.map_cons, List.nodup_cons] at h
    by_cases hak : a = k
    · subst hak
      simpa [updateOne, keysNodup, List.nodup_cons] using h
    · have h2 := ih h.2
      simp only [updateOne, if_neg hak, keysNodup, List.map_cons,
        List.nodup_cons]
      refine ⟨?_, h2⟩
      intro hmem
      rcases mem_keys_updateOne tl k v a hmem with h3 | h3
      · exact h.1 h3
      · exact hak h3

theorem keysNodup_dictUpdate {α : Type} (d e : List (String × α))
    (h : keysNodup d) : keysNodup (dictUpdate d e) := by
  induction e generalizing d with
  | nil => exact h
  | cons kv rest ih =>
    obtain ⟨k, v⟩ := kv
    exact ih (updateOne d k v) (keysNodup_updateOne d k v h)

theorem dictLookup_dictUpdate {α : Type} (d e : List (String × α))
    (k : String) (he : keysNodup e) :
    dictLookup (dictUpdate d e) k = optOr (dictLookup e k) (dictLookup d k) := by
  induction e generalizing d with
  | nil => simp [dictUpdate, dictLookup, optOr]
  | cons kv rest ih =>
    obtain ⟨k0, v0⟩ := kv
    simp only [keysNodup, List.map_cons, List.nodup_cons] at he
    rw [dictUpdate, ih (updateOne d k0 v0) he.2, dictLookup_updateOne]
    by_cases h0 : k0 = k
    · subst h0
      rw [dictLookup_eq_none rest k0 he.1]
      simp [dictLookup, optOr]
    · simp [dictLookup, h0, optOr]

/-! Lemmas on the best-of-N selection -/

theorem scanThreshold_eq_firstAccepted (th : ℚ)
    (futs : List (String × Timing × Option V2Outcome)) :
    scanThreshold th futs = firstAccepted th futs := by
  induction futs with
  | nil => rfl
  | cons f rest ih =>
    obtain ⟨name, timing, value⟩ := f
    cases timing with
    | onTime =>
      cases value with
      | none =>
        simpa [scanThreshold, firstAccepted, acceptableAt,
          List.filterMap_cons] using ih
      | some o =>
        by_cases hconf : th ≤ o.confidence
        · simp [scanThreshold, firstAccepted, acceptableAt,
            List.filterMap_cons, hconf]
        · simpa [scanThreshold, firstAccepted, acceptableAt,
            List.filterMap_cons, hconf] using ih
    | late =>
      cases value with
      | none =>
        simpa [scanThreshold, firstAccepted, acceptableAt,
          List.filterMap_cons] using ih
      | some o =>
        simpa [scanThreshold, firstAccepted, acceptableAt,
          List.filterMap_cons] using ih
    | never =>
      cases value with
      | none =>
        simpa [scanThreshold, firstAccepted, acceptableAt,
          List.filterMap_cons] using ih
      | some o =>
        simpa [scanThreshold, firstAccepted, acceptableAt,
          List.filterMap_cons] using ih

theorem collectCompleted_eq_completedOutcomes
    (futs : List (String × Timing × Option V2Outcome)) :
    collectCompleted futs = completedOutcomes futs := by
  induction futs with
  | nil => rfl
  | cons f rest ih =>
    obtain ⟨name, timing, value⟩ := f
    cases timing <;> cases value <;>
      simp [collectCompleted, completedOutcomes, List.filterMap_cons, ih]

theorem firstAccepted_eq_none_of_completed_nil (th : ℚ)
    (futs : List (String × Timing × Option V2Outcome))
    (h : completedOutcomes futs = []) : firstAccepted th futs = none := by
  induction futs with
  | nil => rfl
  | cons f rest ih =>
    obtain ⟨name, timing, value⟩ := f
    cases timing with
    | onTime =>
      cases value with
      | some o => simp [completedOutcomes, List.filterMap_cons] at h
      | none =>
        simp only [completedOutcomes, List.filterMap_cons] at h
        simpa [firstAccepted, acceptableAt, List.filterMap_cons] using
          ih (by simpa [completedOutcomes] using h)
    | late =>
      cases value with
      | some o => simp [completedOutcomes, List.filterMap_cons] at h
      | none =>
        simp only [completedOutcomes, List.filterMap_cons] at h
        simpa [firstAccepted, acceptableAt, List.filterMap_cons] using
          ih (by simpa [completedOutcomes] using h)
    | never =>
      simp only [completedOutcomes, List.filterMap_cons] at h
      simpa [firstAccepted, acceptableAt, List.filterMap_cons] using
        ih (by simpa [completedOutcomes] using h)

theorem pyMaxByConf_mem (c : String × V2Outcome)
    (l : List (String × V2Outcome)) : pyMaxByConf c l ∈ c :: l := by
  induction l generalizing c with
  | nil => simp [pyMaxByConf]
  | cons x rest ih =>
    rw [pyMaxByConf]
    rcases List.mem_cons.mp
        (ih (if c.2.confidence < x.2.confidence then x else c)) with h1 | h1
    · rw [h1]
      split_ifs <;> simp
    · exact List.mem_cons_of_mem _ (List.mem_cons_of_mem _ h1)

theorem pyMaxByConf_le (c : String × V2Outcome)
    (l : List (String × V2Outcome)) :
    ∀ d ∈ c :: l, d.2.confidence ≤ (pyMaxByConf c l).2.confidence := by
  induction l generalizing c with
  | nil =>
    intro d hd
    simp only [List.mem_singleton] at hd
    subst hd
    exact le_refl _
  | cons x rest ih =>
    intro d hd
    rw [pyMaxByConf]
    have hcb : c.2.confidence ≤
        (if c.2.confidence < x.2.confidence then x else c).2.confidence := by
      split_ifs with h
      · exact le_of_lt h
      · exact le_refl _
    have hxb : x.2.confidence ≤
        (if c.2.confidence < x.2.confidence then x else c).2.confidence := by
      split_ifs with h
      · exact le_refl _
      · exact le_of_not_lt h
    have hself := ih (if c.2.confidence < x.2.confidence then x else c) _
      (List.mem_cons_self _ _)
    rcases List.mem_cons.mp hd with h1 | h1
    · subst h1
      exact le_trans hcb hself
    · rcases List.mem_cons.mp h1 with h2 | h2
      · subst h2
        exact le_trans hxb hself
      · exact ih _ d (List.mem_cons_of_mem _ h2)

/-! Claim theorems -/

/-- C4: timeout containment fails on the code.  If the primary adapter's
task never finishes, process_image never returns at all: the
with-statement's implicit shutdown(wait=True) joins the hung worker thread,
so the per-wait timeouts do not bound the call.  Even a finite hang of
1000 s delays the return until 1000 s, past the 60+30+30 budget the claim
states. -/
theorem hung_adapter_blocks_return :
    processImageV1ReturnTime none (some 1) (some 1) = none ∧
    processImageV1ReturnTime (some 1000) (some 1) (some 1) = some 1000 ∧
    ¬ (1000 : Nat) ≤ 60 + 30 + 30 := by
  refine ⟨rfl, by decide, by decide⟩

/-- C5: under the best-of-N policy the final result is the first future, in
the fixed priority order of the futures dict (cloud_vision, easyocr,
tesseract), that completed within the first-pass wait with confidence at
least the threshold, with the shared layout attached; failing that, a
completed outcome of maximal confidence with the layout attached; and if no
adapter completed, the failed result with empty text and zero confidence. -/
theorem best_of_n_selection_policy (th : ℚ) (l : LayoutVal)
    (futs : List (String × Timing × Option V2Outcome)) :
    (∀ name o, firstAccepted th futs = some (name, o) →
      ocrSelectV2 th l futs = attachV2 o name l) ∧
    (firstAccepted th futs = none → completedOutcomes futs ≠ [] →
      ∃ p ∈ completedOutcomes futs,
        ocrSelectV2 th l futs = attachV2 p.2 p.1 l ∧
        ∀ q ∈ completedOutcomes futs,
          q.2.confidence ≤ p.2.confidence) ∧
    (completedOutcomes futs = [] → ocrSelectV2 th l futs = allFailedV2 l) := by
  refine ⟨?_, ?_, ?_⟩
  · intro name o h
    simp [ocrSelectV2, scanThreshold_eq_firstAccepted, h]
  · intro hnone hne
    cases hc : completedOutcomes futs with
    | nil => exact absurd hc hne
    | cons c rest =>
      refine ⟨pyMaxByConf c rest, ?_, ?_, ?_⟩
      · exact pyMaxByConf_mem c rest
      · simp [ocrSelectV2, scanThreshold_eq_firstAccepted, hnone,
          collectCompleted_eq_completedOutcomes, hc]
      · intro q hq
        exact pyMaxByConf_le c rest q hq
  · intro h
    simp [ocrSelectV2, scanThreshold_eq_firstAccepted,
      firstAccepted_eq_none_of_completed_nil th futs h,
      collectCompleted_eq_completedOutcomes, h]

/-- Witness for best_of_n_selection_policy: a concrete futures list whose
first future completes on time above the threshold. -/
theorem best_of_n_selection_policy_witness :
    ocrSelectV2 (0 : ℚ) LayoutVal.emptyDict
      [("cloud_vision", Timing.onTime,
        some { text := "hi", confidence := (1 : ℚ), metadata := [] })] =
      attachV2 { text := "hi", confidence := (1 : ℚ), metadata := [] }
        "cloud_vision" LayoutVal.emptyDict :=
  (best_of_n_selection_policy (0 : ℚ) LayoutVal.emptyDict
    [("cloud_vision", Timing.onTime,
      some { text := "hi", confidence := (1 : ℚ), metadata := [] })]).1
    "cloud_vision" { text := "hi", confidence := (1 : ℚ), metadata := [] }
    (by decide)

theorem optOr_assoc {α : Type} (a b c : Option α) :
    optOr (optOr a b) c = optOr a (optOr b c) := by
  cases a <;> rfl

theorem keysNodup_suppTessV1 (tess : Fut TessCallV1) :
    keysNodup (suppTessV1 tess) := by
  cases tess with
  | exn => simp [suppTessV1, keysNodup]
  | ok call => cases call <;> simp [suppTessV1, ocrWithTesseractV1, keysNodup]

theorem keysNodup_suppEasyV1 (easyAvail : Bool) (easy : Fut EasyCall) :
    keysNodup (suppEasyV1 easyAvail easy) := by
  cases easyAvail with
  | false => simp [suppEasyV1, keysNodup]
  | true =>
    cases easy with
    | exn => simp [suppEasyV1, keysNodup]
    | ok call =>
      cases call with
      | raises e => simp [suppEasyV1, ocrWithEasyocrV1, keysNodup]
      | returns results =>
        cases results <;> simp [suppEasyV1, ocrWithEasyocrV1, keysNodup]

/-- Inversion of processImageV1 on a run that actually invoked the engines
(third component true): the returned result is the engine-phase result. -/
theorem processImageV1_fresh (enableCaching : Bool)
    (cache : List (String × CacheFileV1)) (md5hex : List Nat → String)
    (fileBytes : Option (List Nat)) (imreadOk : Bool)
    (openai : Fut OpenaiCall) (easyAvail : Bool) (easy : Fut EasyCall)
    (tess : Fut TessCallV1) (writeOk : Bool) (r : OcrResultV1)
    (cache2 : List (String × CacheFileV1))
    (h : processImageV1 enableCaching cache md5hex fileBytes imreadOk openai
      easyAvail easy tess writeOk = Except.ok (r, cache2, true)) :
    r = runEnginesV1 openai easyAvail easy tess := by
  cases enableCaching with
  | false =>
    cases imreadOk with
    | false => simp [processImageV1] at h
    | true =>
      simp only [processImageV1, Bool.false_eq_true, if_false, if_true,
        Except.ok.injEq, Prod.mk.injEq] at h
      exact h.1.symm
  | true =>
    cases fileBytes with
    | none => simp [processImageV1] at h
    | some bs =>
      cases hlook : getCachedResultV1 true cache (generateCacheKeyV1 md5hex bs) with
      | some rr => simp [processImageV1, hlook] at h
      | none =>
        cases imreadOk with
        | false => simp [processImageV1, hlook] at h
        | true =>
          simp only [processImageV1, hlook, if_true, Except.ok.injEq,
            Prod.mk.injEq] at h
          exact h.1.symm

/-- C1: under the primary-plus-supplement policy, on every run that invokes
the engines, the final result's text, confidence and method are exactly the
primary (OpenAI Vision) outcome's — empty text and zero confidence whenever
the primary future raises or times out or its adapter caught an internal
error — and the supplemental adapters contribute only metadata, merged in
the fixed order EasyOCR first then Tesseract, with later entries overwriting
earlier ones on key collision (lookup priority: Tesseract, then EasyOCR,
then the primary's own metadata). -/
theorem primary_plus_supplement_policy (enableCaching : Bool)
    (cache : List (String × CacheFileV1)) (md5hex : List Nat → String)
    (fileBytes : Option (List Nat)) (imreadOk : Bool)
    (openai : Fut OpenaiCall) (easyAvail : Bool) (easy : Fut EasyCall)
    (tess : Fut TessCallV1) (writeOk : Bool) (r : OcrResultV1)
    (cache2 : List (String × CacheFileV1))
    (hrun : processImageV1 enableCaching cache md5hex fileBytes imreadOk
      openai easyAvail easy tess writeOk = Except.ok (r, cache2, true)) :
    r.text = (primaryOutcome openai).text ∧
    r.confidence = (primaryOutcome openai).confidence ∧
    r.method = (primaryOutcome openai).method ∧
    ((openai = Fut.exn ∨ ∃ e, openai = Fut.ok (OpenaiCall.raises e)) →
      r.text = "" ∧ r.confidence = 0) ∧
    (∀ k, dictLookup r.metadata k =
      optOr (dictLookup (suppTessV1 tess) k)
        (optOr (dictLookup (suppEasyV1 easyAvail easy) k)
          (dictLookup (primaryOutcome openai).metadata k))) := by
  have hr := processImageV1_fresh enableCaching cache md5hex fileBytes
    imreadOk openai easyAvail easy tess writeOk r cache2 hrun
  subst hr
  refine ⟨rfl, rfl, rfl, ?_, ?_⟩
  · intro hfail
    rcases hfail with hfail | ⟨e, hfail⟩ <;> subst hfail <;>
      exact ⟨rfl, rfl⟩
  · intro k
    show dictLookup (dictUpdate (primaryOutcome openai).metadata
      (supplementalMetadataV1 easyAvail easy tess)) k = _
    have hnodup : keysNodup (supplementalMetadataV1 easyAvail easy tess) :=
      keysNodup_dictUpdate _ _
        (keysNodup_dictUpdate _ _ (by simp [keysNodup]))
    rw [dictLookup_dictUpdate _ _ k hnodup]
    have hsupp : dictLookup (supplementalMetadataV1 easyAvail easy tess) k =
        optOr (dictLookup (suppTessV1 tess) k)
          (dictLookup (suppEasyV1 easyAvail easy) k) := by
      show dictLookup (dictUpdate (dictUpdate [] (suppEasyV1 easyAvail easy))
        (suppTessV1 tess)) k = _
      rw [dictLookup_dictUpdate _ _ k (keysNodup_suppTessV1 tess)]
      rw [dictLookup_dictUpdate _ _ k (keysNodup_suppEasyV1 easyAvail easy)]
      rw [show dictLookup ([] : List (String × MetaVal)) k = none from rfl]
      rw [optOr_none_right]
    rw [hsupp, optOr_assoc]

/-- Witness for primary_plus_supplement_policy: a concrete run whose primary
future times out and whose Tesseract adapter caught an internal error. -/
theorem primary_plus_supplement_policy_witness :
    (OcrResultV1.mk "" 0 "openai_vision_failed"
        [("tesseract_error", MetaVal.str "boom")]).text =
      (primaryOutcome Fut.exn).text ∧
    dictLookup (OcrResultV1.mk "" 0 "openai_vision_failed"
        [("tesseract_error", MetaVal.str "boom")]).metadata "tesseract_error" =
      optOr (dictLookup (suppTessV1 (Fut.ok (TessCallV1.raises "boom")))
          "tesseract_error")
        (optOr (dictLookup (suppEasyV1 false Fut.exn) "tesseract_error")
          (dictLookup (primaryOutcome Fut.exn).metadata "tesseract_error")) := by
  have h := primary_plus_supplement_policy false [] (fun _ => "") none true
    Fut.exn false Fut.exn (Fut.ok (TessCallV1.raises "boom")) true
    (OcrResultV1.mk "" 0 "openai_vision_failed"
      [("tesseract_error", MetaVal.str "boom")]) [] rfl
  exact ⟨h.1, h.2.2.2.2 "tesseract_error"⟩

/-- C3 counterexample: when the vision call succeeds but extracts no text,
process_image returns empty text with the fixed confidence 0.95, violating
the claimed invariant text empty implies confidence zero. -/
theorem empty_text_confidence_counterexample :
    processImageV1 false [] (fun _ => "") (some []) true
      (Fut.ok (OpenaiCall.returns
        { extracted_text := some "", summary := none, creative_tags := none,
          image_category := none }))
      false Fut.exn Fut.exn true =
      Except.ok
        (OcrResultV1.mk "" ((95 : ℚ) / 100) "openai_vision"
          [("summary", MetaVal.str "")
          ,("tags", MetaVal.strs [])
          ,("category", MetaVal.str "unknown")
          ,("model", MetaVal.str "gpt-5-mini")], [], true) ∧
    ¬ ((95 : ℚ) / 100 = 0) := by
  constructor
  · rfl
  · norm_num

/-- C3 (amended): in the primary-plus-supplement variant, every freshly
computed result with empty text either has confidence zero (and a failure
method marker), or came from a successful vision call (method
"openai_vision"), in which case its confidence is the fixed 0.95 regardless
of the empty transcription; the unconditional invariant claimed by the spec
fails exactly in that second case. -/
theorem empty_text_confidence_invariant (enableCaching : Bool)
    (cache : List (String × CacheFileV1)) (md5hex : List Nat → String)
    (fileBytes : Option (List Nat)) (imreadOk : Bool)
    (openai : Fut OpenaiCall) (easyAvail : Bool) (easy : Fut EasyCall)
    (tess : Fut TessCallV1) (writeOk : Bool) (r : OcrResultV1)
    (cache2 : List (String × CacheFileV1))
    (hrun : processImageV1 enableCaching cache md5hex fileBytes imreadOk
      openai easyAvail easy tess writeOk = Except.ok (r, cache2, true))
    (hempty : r.text = "") :
    (r.method = "openai_vision_failed" ∧ r.confidence = 0) ∨
    (r.method = "openai_vision" ∧ r.confidence = (95 : ℚ) / 100) := by
  have hr := processImageV1_fresh enableCaching cache md5hex fileBytes
    imreadOk openai easyAvail easy tess writeOk r cache2 hrun
  subst hr
  cases openai with
  | exn => exact Or.inl ⟨rfl, rfl⟩
  | ok call =>
    cases call with
    | raises e => exact Or.inl ⟨rfl, rfl⟩
    | returns rd => exact Or.inr ⟨rfl, rfl⟩

/-- Witness for empty_text_confidence_invariant: an all-timeout run, whose
result has empty text, zero confidence and the failure method marker. -/
theorem empty_text_confidence_invariant_witness :
    (OcrResultV1.mk "" 0 "openai_vision_failed" []).method =
        "openai_vision_failed" ∧
      (OcrResultV1.mk "" 0 "openai_vision_failed" []).confidence = 0 := by
  have h := empty_text_confidence_invariant false [] (fun _ => "") none true
    Fut.exn false Fut.exn Fut.exn true
    (OcrResultV1.mk "" 0 "openai_vision_failed" []) [] rfl rfl
  rcases h with h | h
  · exact h
  · exact absurd h.1 (by decide)

/-- The selection layer yields the all-failed result when every future
times out in both passes, whatever the adapters would have returned. -/
theorem ocrSelectV2_futuresV2_never (th : ℚ) (l : LayoutVal)
    (cloudAvail : Bool) (fileBytes : Option (List Nat))
    (cloudClient : List Nat → CloudCall) (easyAvail : Bool)
    (easyCall : EasyCall) (tessCall : TessCallV2) :
    ocrSelectV2 th l (futuresV2 cloudAvail Timing.never fileBytes cloudClient
      easyAvail Timing.never easyCall Timing.never tessCall) =
      allFailedV2 l := by
  cases cloudAvail <;> cases easyAvail <;>
    simp [futuresV2, ocrSelectV2, scanThreshold, collectCompleted]

/-- Every branch of the selection attaches the shared layout. -/
theorem ocrSelectV2_layout (th : ℚ) (l : LayoutVal)
    (futs : List (String × Timing × Option V2Outcome)) :
    (ocrSelectV2 th l futs).layout = l := by
  unfold ocrSelectV2
  cases hscan : scanThreshold th futs with
  | some p => obtain ⟨n, o⟩ := p; rfl
  | none =>
    cases hcol : collectCompleted futs with
    | nil => rfl
    | cons c rest => rfl

/-- Inversion of processImageV2 on a run whose trace is nonempty (so not a
cache hit): the image decoded, the result is the selection over the futures
dict for the layout computed from the possibly preprocessed image, and the
trace records the adapter submissions. -/
theorem processImageV2_fresh (enableCaching : Bool)
    (cache : List (String × CacheFileV2)) (md5hex : List Nat → String)
    (sha256hex : String → String) (floatRepr : ℚ → String) (th : ℚ)
    (fileBytes : Option (List Nat)) (pre det : Bool) (imread : Option Img)
    (cv : CvOps) (fc : Img → List Rect) (cloudAvail : Bool)
    (cloudTiming : Timing) (cloudClient : List Nat → CloudCall)
    (easyAvail : Bool) (easyTiming : Timing) (easyCall : EasyCall)
    (tessTiming : Timing) (tessCall : TessCallV2) (writeOk : Bool)
    (r : OcrResultV2) (cache2 : List (String × CacheFileV2))
    (tr : List (String × AdapterInput))
    (h : processImageV2 enableCaching cache md5hex sha256hex floatRepr th
      fileBytes pre det imread cv fc cloudAvail cloudTiming cloudClient
      easyAvail easyTiming easyCall tessTiming tessCall writeOk =
      Except.ok (r, cache2, tr)) (hne : tr ≠ []) :
    ∃ img0, imread = some img0 ∧
      r = ocrSelectV2 th
        (if det then
          LayoutVal.layout (detectLayout (fc
            (if pre then preprocessImage cv img0 else img0)))
         else LayoutVal.emptyDict)
        (futuresV2 cloudAvail cloudTiming fileBytes cloudClient easyAvail
          easyTiming easyCall tessTiming tessCall) ∧
      tr = traceV2 cloudAvail fileBytes easyAvail
        (if pre then preprocessImage cv img0 else img0) := by
  cases enableCaching with
  | false =>
    cases imread with
    | none => simp [processImageV2] at h
    | some img0 =>
      refine ⟨img0, rfl, ?_, ?_⟩
      · simp only [processImageV2, Bool.false_eq_true, if_false,
          Except.ok.injEq, Prod.mk.injEq] at h
        exact h.1.symm
      · simp only [processImageV2, Bool.false_eq_true, if_false,
          Except.ok.injEq, Prod.mk.injEq] at h
        exact h.2.2.symm
  | true =>
    cases fileBytes with
    | none => simp [processImageV2] at h
    | some bs =>
      cases hlook : getCachedResultV2 true cache (generateCacheKeyV2 md5hex
        sha256hex floatRepr bs pre det th) with
      | some rr =>
        simp only [processImageV2, if_true, hlook, Except.ok.injEq,
          Prod.mk.injEq] at h
        exact absurd h.2.2.symm hne
      | none =>
        cases imread with
        | none => simp [processImageV2, hlook] at h
        | some img0 =>
          refine ⟨img0, rfl, ?_, ?_⟩
          · simp only [processImageV2, if_true, hlook, Except.ok.injEq,
              Prod.mk.injEq] at h
            exact h.1.symm
          · simp only [processImageV2, if_true, hlook, Except.ok.injEq,
              Prod.mk.injEq] at h
            exact h.2.2.symm

/-- C2 counterexample: with every adapter raising or timing out, the
best-of-N process_image returns the method marker "none", not "failed", and
the primary-plus-supplement variant returns "openai_vision_failed" with an
empty metadata mapping (no error indicator) when every failure is a
timeout. -/
theorem all_failed_method_counterexample :
    processImageV2 false [] (fun _ => "") (fun s => s) (fun _ => "") 0 none
      false false (some [[0]]) (CvOps.mk id id id id) (fun _ => []) false
      Timing.never (fun _ => CloudCall.raises "x") false Timing.never
      (EasyCall.raises "x") Timing.never (TessCallV2.raises "x") false =
      Except.ok (allFailedV2 LayoutVal.emptyDict, [],
        [("tesseract", AdapterInput.image [[0]])]) ∧
    (allFailedV2 LayoutVal.emptyDict).method = "none" ∧
    "none" ≠ "failed" ∧
    processImageV1 false [] (fun _ => "") none true Fut.exn true Fut.exn
      Fut.exn false =
      Except.ok (OcrResultV1.mk "" 0 "openai_vision_failed" [], [], true) := by
  refine ⟨rfl, rfl, by decide, rfl⟩

/-- C2 (amended): if every adapter raises or times out, process_image still
returns without raising an OcrResult with empty text and confidence 0.0; the
method marker is "none" (not "failed") in the best-of-N variant, whose
metadata carries the error entry "All OCR methods failed", and
"openai_vision_failed" in the primary-plus-supplement variant, whose
metadata is empty on an all-timeout run (no error indicator). -/
theorem all_failed_result_shape :
    (∀ (enableCaching : Bool) (cache : List (String × CacheFileV2))
      (md5hex : List Nat → String) (sha256hex : String → String)
      (floatRepr : ℚ → String) (th : ℚ) (fileBytes : Option (List Nat))
      (pre det : Bool) (imread : Option Img) (cv : CvOps)
      (fc : Img → List Rect) (cloudAvail : Bool)
      (cloudClient : List Nat → CloudCall) (easyAvail : Bool)
      (easyCall : EasyCall) (tessCall : TessCallV2) (writeOk : Bool)
      (r : OcrResultV2) (cache2 : List (String × CacheFileV2))
      (tr : List (String × AdapterInput)),
      processImageV2 enableCaching cache md5hex sha256hex floatRepr th
        fileBytes pre det imread cv fc cloudAvail Timing.never cloudClient
        easyAvail Timing.never easyCall Timing.never tessCall writeOk =
        Except.ok (r, cache2, tr) →
      tr ≠ [] →
      r.text = "" ∧ r.confidence = 0 ∧ r.method = "none" ∧
        dictLookup r.metadata "error" =
          some (MetaVal.str "All OCR methods failed")) ∧
    (∀ (enableCaching : Bool) (cache : List (String × CacheFileV1))
      (md5hex : List Nat → String) (fileBytes : Option (List Nat))
      (easyAvail writeOk : Bool) (r : OcrResultV1)
      (cache2 : List (String × CacheFileV1)),
      processImageV1 enableCaching cache md5hex fileBytes true Fut.exn
        easyAvail Fut.exn Fut.exn writeOk = Except.ok (r, cache2, true) →
      r.text = "" ∧ r.confidence = 0 ∧
        r.method = "openai_vision_failed" ∧ r.metadata = []) := by
  constructor
  · intro enableCaching cache md5hex sha256hex floatRepr th fileBytes pre det
      imread cv fc cloudAvail cloudClient easyAvail easyCall tessCall writeOk
      r cache2 tr h hne
    obtain ⟨img0, _, hr, _⟩ := processImageV2_fresh enableCaching cache
      md5hex sha256hex floatRepr th fileBytes pre det imread cv fc cloudAvail
      Timing.never cloudClient easyAvail Timing.never easyCall Timing.never
      tessCall writeOk r cache2 tr h hne
    rw [hr, ocrSelectV2_futuresV2_never]
    exact ⟨rfl, rfl, rfl, rfl⟩
  · intro enableCaching cache md5hex fileBytes easyAvail writeOk r cache2 h
    have hr := processImageV1_fresh enableCaching cache md5hex fileBytes true
      Fut.exn easyAvail Fut.exn Fut.exn writeOk r cache2 h
    subst hr
    cases easyAvail <;> exact ⟨rfl, rfl, rfl, rfl⟩

/-- Witness for all_failed_result_shape at a concrete all-timeout run of
each variant. -/
theorem all_failed_result_shape_witness :
    ((allFailedV2 LayoutVal.emptyDict).text = "" ∧
      (allFailedV2 LayoutVal.emptyDict).confidence = 0 ∧
      (allFailedV2 LayoutVal.emptyDict).method = "none" ∧
      dictLookup (allFailedV2 LayoutVal.emptyDict).metadata "error" =
        some (MetaVal.str "All OCR methods failed")) ∧
    ((OcrResultV1.mk "" 0 "openai_vision_failed" []).text = "" ∧
      (OcrResultV1.mk "" 0 "openai_vision_failed" []).confidence = 0 ∧
      (OcrResultV1.mk "" 0 "openai_vision_failed" []).method =
        "openai_vision_failed" ∧
      (OcrResultV1.mk "" 0 "openai_vision_failed" []).metadata = []) := by
  constructor
  · exact all_failed_result_shape.1 false [] (fun _ => "") (fun s => s)
      (fun _ => "") 0 none false false (some [[0]]) (CvOps.mk id id id id)
      (fun _ => []) false (fun _ => CloudCall.raises "x") false
      (EasyCall.raises "x") (TessCallV2.raises "x") false
      (allFailedV2 LayoutVal.emptyDict) []
      [("tesseract", AdapterInput.image [[0]])] rfl (by decide)
  · exact all_failed_result_shape.2 false [] (fun _ => "") none false false
      (OcrResultV1.mk "" 0 "openai_vision_failed" []) [] rfl

/-- C8 counterexample: a run on which every engine fails writes the
all-failed result (empty text, zero confidence) into the cache, so the total
failure is persisted under the image's key. -/
theorem failed_result_cached_counterexample :
    processImageV2 true [] (fun _ => "K") (fun _ => "K") (fun _ => "") 0
      (some [7]) false false (some [[0]]) (CvOps.mk id id id id)
      (fun _ => []) false Timing.never (fun _ => CloudCall.raises "x") false
      Timing.never (EasyCall.raises "x") Timing.never
      (TessCallV2.raises "x") true =
      Except.ok (allFailedV2 LayoutVal.emptyDict,
        [("K", CacheFileV2.val (allFailedV2 LayoutVal.emptyDict))],
        [("tesseract", AdapterInput.image [[0]])]) ∧
    (allFailedV2 LayoutVal.emptyDict).text = "" ∧
    (allFailedV2 LayoutVal.emptyDict).confidence = 0 ∧
    dictLookup
        [("K", CacheFileV2.val (allFailedV2 LayoutVal.emptyDict))] "K" =
      some (CacheFileV2.val (allFailedV2 LayoutVal.emptyDict)) := by
  refine ⟨rfl, rfl, rfl, rfl⟩

/-- C8 (amended): the best-of-N process_image persists a cache entry on
every completed call with caching enabled and a successful write — including
a call on which every engine failed — so the returned result, failure or
not, is always found under the image's key afterwards and a later call for
the same key re-serves it instead of re-running the engines. -/
theorem unconditional_cache_write (cache : List (String × CacheFileV2))
    (md5hex : List Nat → String) (sha256hex : String → String)
    (floatRepr : ℚ → String) (th : ℚ) (bs : List Nat) (pre det : Bool)
    (imread : Option Img) (cv : CvOps) (fc : Img → List Rect)
    (cloudAvail : Bool) (cloudTiming : Timing)
    (cloudClient : List Nat → CloudCall) (easyAvail : Bool)
    (easyTiming : Timing) (easyCall : EasyCall) (tessTiming : Timing)
    (tessCall : TessCallV2) (r : OcrResultV2)
    (cache2 : List (String × CacheFileV2))
    (tr : List (String × AdapterInput))
    (h : processImageV2 true cache md5hex sha256hex floatRepr th (some bs)
      pre det imread cv fc cloudAvail cloudTiming cloudClient easyAvail
      easyTiming easyCall tessTiming tessCall true =
      Except.ok (r, cache2, tr)) :
    dictLookup cache2
      (generateCacheKeyV2 md5hex sha256hex floatRepr bs pre det th) =
      some (CacheFileV2.val r) := by
  cases hlook : getCachedResultV2 true cache (generateCacheKeyV2 md5hex
    sha256hex floatRepr bs pre det th) with
  | some rr =>
    simp only [processImageV2, if_true, hlook, Except.ok.injEq,
      Prod.mk.injEq] at h
    rw [← h.2.1, ← h.1]
    revert hlook
    unfold getCachedResultV2
    cases hdl : dictLookup cache (generateCacheKeyV2 md5hex sha256hex
      floatRepr bs pre det th) with
    | none => simp
    | some cf =>
      cases cf with
      | corrupt => simp
      | val rv => simp
  | none =>
    cases imread with
    | none => simp [processImageV2, hlook] at h
    | some img0 =>
      simp only [processImageV2, if_true, hlook, Except.ok.injEq,
        Prod.mk.injEq] at h
      rw [← h.2.1, ← h.1, dictLookup_updateOne]
      simp

/-- Witness for unconditional_cache_write at a concrete all-failed run. -/
theorem unconditional_cache_write_witness :
    dictLookup [("K", CacheFileV2.val (allFailedV2 LayoutVal.emptyDict))]
        (generateCacheKeyV2 (fun _ => "K") (fun _ => "K") (fun _ => "") [7]
          false false 0) =
      some (CacheFileV2.val (allFailedV2 LayoutVal.emptyDict)) :=
  unconditional_cache_write [] (fun _ => "K") (fun _ => "K") (fun _ => "") 0
    [7] false false (some [[0]]) (CvOps.mk id id id id) (fun _ => []) false
    Timing.never (fun _ => CloudCall.raises "x") false Timing.never
    (EasyCall.raises "x") Timing.never (TessCallV2.raises "x")
    (allFailedV2 LayoutVal.emptyDict)
    [("K", CacheFileV2.val (allFailedV2 LayoutVal.emptyDict))]
    [("tesseract", AdapterInput.image [[0]])] rfl

/-- C10: on a fresh best-of-N run, the Cloud Vision adapter is handed the
file path and itself reads the original file bytes from disk — the
preprocess flag has no effect on the bytes it analyzes — while EasyOCR and
Tesseract receive the in-memory image, preprocessed exactly when the flag is
set, and the layout analysis runs on that same in-memory image. -/
theorem cloud_vision_reads_original_bytes (enableCaching : Bool)
    (cache : List (String × CacheFileV2)) (md5hex : List Nat → String)
    (sha256hex : String → String) (floatRepr : ℚ → String) (th : ℚ)
    (fileBytes : Option (List Nat)) (pre det : Bool) (imread : Option Img)
    (cv : CvOps) (fc : Img → List Rect) (cloudAvail : Bool)
    (cloudTiming : Timing) (cloudClient : List Nat → CloudCall)
    (easyAvail : Bool) (easyTiming : Timing) (easyCall : EasyCall)
    (tessTiming : Timing) (tessCall : TessCallV2) (writeOk : Bool)
    (r : OcrResultV2) (cache2 : List (String × CacheFileV2))
    (tr : List (String × AdapterInput)) (img0 : Img)
    (himg : imread = some img0)
    (h : processImageV2 enableCaching cache md5hex sha256hex floatRepr th
      fileBytes pre det imread cv fc cloudAvail cloudTiming cloudClient
      easyAvail easyTiming easyCall tessTiming tessCall writeOk =
      Except.ok (r, cache2, tr)) (hne : tr ≠ []) :
    (∀ inp, ("cloud_vision", inp) ∈ tr →
      inp = AdapterInput.fileRead fileBytes) ∧
    (∀ inp, ("easyocr", inp) ∈ tr →
      inp = AdapterInput.image (if pre then preprocessImage cv img0
        else img0)) ∧
    (∀ inp, ("tesseract", inp) ∈ tr →
      inp = AdapterInput.image (if pre then preprocessImage cv img0
        else img0)) ∧
    (det = true →
      r.layout = LayoutVal.layout (detectLayout (fc
        (if pre then preprocessImage cv img0 else img0)))) := by
  obtain ⟨img1, himg1, hr, htr⟩ := processImageV2_fresh enableCaching cache
    md5hex sha256hex floatRepr th fileBytes pre det imread cv fc cloudAvail
    cloudTiming cloudClient easyAvail easyTiming easyCall tessTiming tessCall
    writeOk r cache2 tr h hne
  rw [himg] at himg1
  injection himg1 with he
  subst he
  subst htr
  refine ⟨?_, ?_, ?_, ?_⟩
  · intro inp hmem
    cases cloudAvail <;> cases easyAvail <;>
      simp [traceV2] at hmem <;> simp [hmem]
  · intro inp hmem
    cases cloudAvail <;> cases easyAvail <;>
      simp [traceV2] at hmem <;> simp [hmem]
  · intro inp hmem
    cases cloudAvail <;> cases easyAvail <;>
      simp [traceV2] at hmem <;> simp [hmem]
  · intro hdet
    subst hdet
    rw [hr, ocrSelectV2_layout]
    simp

/-- Witness for cloud_vision_reads_original_bytes at a concrete preprocessed
run in which every engine is submitted. -/
theorem cloud_vision_reads_original_bytes_witness :
    AdapterInput.fileRead (some [7]) = AdapterInput.fileRead (some [7]) ∧
    AdapterInput.image [[0]] =
      AdapterInput.image (if true then
        preprocessImage (CvOps.mk id id id id) [[0]] else [[0]]) := by
  have h := cloud_vision_reads_original_bytes false [] (fun _ => "K")
    (fun _ => "K") (fun _ => "") 0 (some [7]) true false (some [[0]])
    (CvOps.mk id id id id) (fun _ => []) true Timing.never
    (fun _ => CloudCall.raises "x") true Timing.never (EasyCall.raises "x")
    Timing.never (TessCallV2.raises "x") false
    (allFailedV2 LayoutVal.emptyDict) []
    [("cloud_vision", AdapterInput.fileRead (some [7])),
     ("easyocr", AdapterInput.image [[0]]),
     ("tesseract", AdapterInput.image [[0]])] [[0]] rfl rfl (by decide)
  exact ⟨h.1 (AdapterInput.fileRead (some [7])) (by decide),
    (h.2.2.1 (AdapterInput.image [[0]]) (by decide)).symm⟩

/-- C6: with caching enabled, once a call has returned a result and its
cache write succeeded, a second consecutive call for the same file bytes
returns the identical result straight from the cache: whatever the second
call's decode outcome and adapter behavior, no engine is invoked (invoked
flag false) and the cache is unchanged — in particular the second call
returns even before the decode check. -/
theorem cache_idempotence (cache : List (String × CacheFileV1))
    (md5hex : List Nat → String) (bs : List Nat) (imreadOk : Bool)
    (openai : Fut OpenaiCall) (easyAvail : Bool) (easy : Fut EasyCall)
    (tess : Fut TessCallV1) (r : OcrResultV1)
    (cache2 : List (String × CacheFileV1)) (invoked : Bool)
    (hfirst : processImageV1 true cache md5hex (some bs) imreadOk openai
      easyAvail easy tess true = Except.ok (r, cache2, invoked))
    (imreadOk' : Bool) (openai' : Fut OpenaiCall) (easyAvail' : Bool)
    (easy' : Fut EasyCall) (tess' : Fut TessCallV1) (writeOk' : Bool) :
    processImageV1 true cache2 md5hex (some bs) imreadOk' openai' easyAvail'
      easy' tess' writeOk' = Except.ok (r, cache2, false) := by
  cases hlook : getCachedResultV1 true cache (generateCacheKeyV1 md5hex bs) with
  | some rr =>
    simp only [processImageV1, if_true, hlook, Except.ok.injEq,
      Prod.mk.injEq] at hfirst
    obtain ⟨h1, h2, _⟩ := hfirst
    have hhit : getCachedResultV1 true cache2
        (generateCacheKeyV1 md5hex bs) = some r := by
      rw [← h2, hlook, h1]
    simp [processImageV1, hhit]
  | none =>
    cases imreadOk with
    | false => simp [processImageV1, hlook] at hfirst
    | true =>
      simp only [processImageV1, if_true, hlook, Except.ok.injEq,
        Prod.mk.injEq] at hfirst
      obtain ⟨h1, h2, _⟩ := hfirst
      have hhit : getCachedResultV1 true cache2
          (generateCacheKeyV1 md5hex bs) = some r := by
        rw [← h2]
        unfold cacheResultV1
        simp only [Bool.and_self, if_true]
        unfold getCachedResultV1
        rw [dictLookup_updateOne]
        simp [h1]
      simp [processImageV1, hhit]

/-- Witness for cache_idempotence: a concrete first call followed by a
second call with a different (even undecodable) configuration. -/
theorem cache_idempotence_witness :
    processImageV1 true
      [("K", CacheFileV1.val (OcrResultV1.mk "" 0 "openai_vision_failed" []))]
      (fun _ => "K") (some [7]) false Fut.exn true Fut.exn Fut.exn false =
      Except.ok (OcrResultV1.mk "" 0 "openai_vision_failed" [],
        [("K", CacheFileV1.val
          (OcrResultV1.mk "" 0 "openai_vision_failed" []))], false) :=
  cache_idempotence [] (fun _ => "K") [7] true Fut.exn false Fut.exn Fut.exn
    (OcrResultV1.mk "" 0 "openai_vision_failed" [])
    [("K", CacheFileV1.val (OcrResultV1.mk "" 0 "openai_vision_failed" []))]
    true rfl false Fut.exn true Fut.exn Fut.exn false

/-- C7 counterexample: with caching enabled and an unreadable file, the
unguarded open() inside _generate_cache_key raises an OS error that escapes
process_image before the decode check — an exception other than the decode
ValueError reaches the caller. -/
theorem cache_key_read_error_escapes :
    processImageV1 true [] (fun _ => "") none true Fut.exn false Fut.exn
      Fut.exn true = Except.error PyExc.osError ∧
    PyExc.osError ≠ PyExc.valueError := by
  refine ⟨rfl, by decide⟩

/-- C7 (amended): exactly two exceptions can escape the V1 process_image —
the decode ValueError, raised when the cache did not serve the call and
cv2.imread returns None, and an OS error from the unguarded file read inside
_generate_cache_key, raised exactly when caching is enabled and the file is
unreadable.  Adapter failures and timeouts, a corrupt cache entry and a
failed cache write never raise. -/
theorem exception_propagation_policy (enableCaching : Bool)
    (cache : List (String × CacheFileV1)) (md5hex : List Nat → String)
    (fileBytes : Option (List Nat)) (imreadOk : Bool)
    (openai : Fut OpenaiCall) (easyAvail : Bool) (easy : Fut EasyCall)
    (tess : Fut TessCallV1) (writeOk : Bool) (e : PyExc) :
    processImageV1 enableCaching cache md5hex fileBytes imreadOk openai
      easyAvail easy tess writeOk = Except.error e ↔
    ((enableCaching = true ∧ fileBytes = none ∧ e = PyExc.osError) ∨
      (e = PyExc.valueError ∧ imreadOk = false ∧
        (enableCaching = true → ∃ bs, fileBytes = some bs ∧
          getCachedResultV1 true cache (generateCacheKeyV1 md5hex bs) =
            none))) := by
  cases enableCaching with
  | false =>
    cases imreadOk with
    | true => simp [processImageV1]
    | false => simp [processImageV1, eq_comm]
  | true =>
    cases fileBytes with
    | none => simp [processImageV1, eq_comm]
    | some bs =>
      cases hlook : getCachedResultV1 true cache
          (generateCacheKeyV1 md5hex bs) with
      | some rr => simp [processImageV1, hlook]
      | none =>
        cases imreadOk with
        | true => simp [processImageV1, hlook]
        | false => simp [processImageV1, hlook, eq_comm]

/-- Witness for exception_propagation_policy: the OS-error direction at a
concrete unreadable file. -/
theorem exception_propagation_policy_witness :
    processImageV1 true [] (fun _ => "") none false Fut.exn false Fut.exn
      Fut.exn true = Except.error PyExc.osError :=
  (exception_propagation_policy true [] (fun _ => "") none false Fut.exn
    false Fut.exn Fut.exn true PyExc.osError).mpr (Or.inl ⟨rfl, rfl, rfl⟩)

/-- C9: the V1 cache key is the md5 digest of the file bytes alone — no
configuration parameter enters generateCacheKeyV1 — so an existing cache
entry for the given bytes is served verbatim by process_image under every
configuration: any adapter availability, any adapter behavior, any decode
outcome and any cache-write behavior, with the cache left untouched and no
engine invoked. -/
theorem cache_key_config_independent (cache : List (String × CacheFileV1))
    (md5hex : List Nat → String) (bs : List Nat) (r : OcrResultV1)
    (hhit : dictLookup cache (generateCacheKeyV1 md5hex bs) =
      some (CacheFileV1.val r))
    (imreadOk : Bool) (openai : Fut OpenaiCall) (easyAvail : Bool)
    (easy : Fut EasyCall) (tess : Fut TessCallV1) (writeOk : Bool) :
    processImageV1 true cache md5hex (some bs) imreadOk openai easyAvail easy
      tess writeOk = Except.ok (r, cache, false) := by
  have hh : getCachedResultV1 true cache (generateCacheKeyV1 md5hex bs) =
      some r := by
    simp [getCachedResultV1, hhit]
  simp [processImageV1, hh]

/-- Witness for cache_key_config_independent: a cached entry is served under
a configuration with a failing primary client, a live EasyOCR reader and a
broken decode. -/
theorem cache_key_config_independent_witness :
    processImageV1 true [("K", CacheFileV1.val (OcrResultV1.mk "t" 1 "m" []))]
      (fun _ => "K") (some [7]) false (Fut.ok (OpenaiCall.raises "e")) true
      Fut.exn Fut.exn false =
      Except.ok (OcrResultV1.mk "t" 1 "m" [],
        [("K", CacheFileV1.val (OcrResultV1.mk "t" 1 "m" []))], false) :=
  cache_key_config_independent
    [("K", CacheFileV1.val (OcrResultV1.mk "t" 1 "m" []))] (fun _ => "K")
    [7] (OcrResultV1.mk "t" 1 "m" []) rfl false
    (Fut.ok (OpenaiCall.raises "e")) true Fut.exn Fut.exn false
